import Mathlib

set_option maxHeartbeats 1000000
set_option linter.unreachableTactic false
set_option linter.unusedTactic false
set_option linter.unnecessarySeqFocus false

/-
Verification development for the XYZ correlation measurement
(src/src/XYZ/XYZMeasurementCorrelation.cpp).

Modelling conventions:
- single-precision floats are modelled as exact rationals; the float
  constant float(M_PI) is an explicit parameter named piv;
- the four spin channels SpinComponent X, Y, Z, None are Fin 4 with
  X = 0, Y = 1, Z = 2, None (Density) = 3;
- a ValueSuperbundle of float with 4 channels is a function
  Fin 4 -> Nat -> Rat (channel, representative separation index);
- the one- and two-particle vertex evaluators are opaque parameters,
  matching the source where they are external objects.
-/

/-- A 4-channel value superbundle over representative separation indices,
modelling ValueSuperbundle of float with 4 channels. -/
abbrev Bund := Fin 4 → ℕ → ℚ

/-- ValueSuperbundle reset: all entries zero. -/
def bundReset : Bund := fun _ _ => 0

/-- ValueBundle.multSub applied to one channel of a superbundle:
entrywise subtract factor times src from channel ch of b. -/
def multSubCh (b : Bund) (ch : Fin 4) (factor : ℚ) (src : Bund) : Bund :=
  fun c i => if c = ch then b c i - factor * src c i else b c i

/-- Add the value v to the zero-separation entry (index 0) of channel ch. -/
def addAtZeroCh (b : Bund) (ch : Fin 4) (v : ℚ) : Bund :=
  fun c i => if c = ch ∧ i = 0 then b c i + v else b c i

/-- The vertex evaluators used by the susceptibility kernel:
v2 is the single-particle vertex (Sigma), v4b the batched two-particle
superbundle query (generateAccessBuffer + getValueSuperbundle), v4p the
pointwise two-particle query at zero lattice separation. -/
structure VertexModel where
  v2 : ℚ → ℚ
  v4b : ℚ → ℚ → ℚ → Bund
  v4p : ℚ → ℚ → ℚ → Fin 4 → ℚ

/-- The inner integration kernel over the frequency wp
(the lambda innerKernel in _calculateCorrelation, lines 126-151). -/
def innerKernel (V : VertexModel) (piv nu w wp : ℚ) : Bund :=
  let stackBuffer : Bund := V.v4b (w + wp + nu) nu (w - wp)
  let vx := V.v4p (w + wp + nu) (w - wp) nu 0
  let vy := V.v4p (w + wp + nu) (w - wp) nu 1
  let vz := V.v4p (w + wp + nu) (w - wp) nu 2
  let vd := V.v4p (w + wp + nu) (w - wp) nu 3
  let ret := bundReset
  let ret := multSubCh ret 0 1 stackBuffer
  let ret := multSubCh ret 1 1 stackBuffer
  let ret := multSubCh ret 2 1 stackBuffer
  let ret := multSubCh ret 3 4 stackBuffer
  let ret := addAtZeroCh ret 0 (0.5 * (vx - vy - vz + vd))
  let ret := addAtZeroCh ret 1 (0.5 * (-vx + vy - vz + vd))
  let ret := addAtZeroCh ret 2 (0.5 * (-vx - vy + vz + vd))
  let ret := addAtZeroCh ret 3 (2 * (vx + vy + vz + vd))
  let nrm := 1 / ((w + V.v2 w) * (w + nu + V.v2 (w + nu)) * (wp + V.v2 wp) *
    (wp + nu + V.v2 (wp + nu)) * (4 * piv * piv))
  nrm • ret

/-- The three-way singular domain split shared by the inner integral over wp
and the outer integral over w (lines 152-166 and 169-183; both blocks are
textually identical in the source). I is the 1-D quadrature primitive
(lib/Integrator.hpp, an external collaborator), f the integrand, gridMin
and gridMax the extreme frequency grid bounds (beginNegative and last),
cut the cutoff and nu the offset frequency. -/
def threeWaySplit (I : (ℚ → Bund) → ℚ → ℚ → Bund) (f : ℚ → Bund)
    (gridMin gridMax cut nu : ℚ) : Bund :=
  (if -(nu + cut) > gridMin then I f gridMin (-cut - nu) else 0) +
  ((if nu - cut > cut then I f (-nu + cut) (-cut) else 0) +
   (if cut < gridMax then I f cut gridMax else 0))

/-- The outer integration kernel over the frequency w
(the lambda integralKernel in _calculateCorrelation, lines 114-167):
the local propagator term added to the zero-separation entry of each
channel, plus the inner integral of innerKernel over wp. -/
def integralKernel (I : (ℚ → Bund) → ℚ → ℚ → Bund) (V : VertexModel)
    (piv gridMin gridMax cut nu : ℚ) (w : ℚ) : Bund :=
  let term1 := 1 / ((w + V.v2 w) * (w + nu + V.v2 (w + nu)))
  let b := bundReset
  let b := addAtZeroCh b 0 (term1 / (4 * piv))
  let b := addAtZeroCh b 1 (term1 / (4 * piv))
  let b := addAtZeroCh b 2 (term1 / (4 * piv))
  let b := addAtZeroCh b 3 (term1 / piv)
  b + threeWaySplit I (innerKernel V piv nu w) gridMin gridMax cut nu

/-- The full susceptibility bundle: the outer three-way split applied to
the outer integration kernel (lines 169-183). -/
def susceptibilityBundle (I : (ℚ → Bund) → ℚ → ℚ → Bund) (V : VertexModel)
    (piv gridMin gridMax cut nu : ℚ) : Bund :=
  threeWaySplit I (integralKernel I V piv gridMin gridMax cut nu) gridMin gridMax cut nu

/-- Modelled from the spec: the lattice geometry interface
(FrgCommon lattice object), which is not under src. nBasis counts basis
sites, nRange the representative neighbor sites per basis site
(the getRange enumeration), and symTransform is the Symmetry Map of
section 4.1 of the spec: an ordered (basis, neighbor) pair and a channel
tag give a representative index into reduced susceptibility storage and
a sign factor. sym_spec is the guarantee of section 4.1: site pairs
related by a declared lattice symmetry share the representative index. -/
structure SpinLattice where
  nBasis : ℕ
  nRange : ℕ
  symTransform : ℕ → ℕ → Fin 4 → ℕ × ℚ
  symRel : ℕ × ℕ → ℕ × ℕ → Prop
  sym_spec : ∀ p q, symRel p q →
    ∀ ch, (symTransform p.1 p.2 ch).1 = (symTransform q.1 q.2 ch).1

/-- The per-iterator output stride (constructor, lines 22-25):
basis count times extended range count. -/
def memoryStepLattice (L : SpinLattice) : ℕ := L.nBasis * L.nRange

/-- Apply a list of indexed writes to a flat buffer, in order
(later writes win, as with sequential stores). -/
def applyWrites (ws : List (ℕ × ℚ)) (f : ℕ → ℚ) : ℕ → ℚ :=
  ws.foldl (fun g p => Function.update g p.1 p.2) f

/-- The sequence of writes performed by the demultiplexing loop of
_calculateCorrelation (lines 185-211) on the flat buffer of channel ch:
offset starts at iterator times memoryStepLattice and is incremented once
per (basis, range) pair, basis outer, range inner; the stored value is the
susceptibility bundle entry of the representative index returned by the
symmetry transform. -/
def corrWrites (L : SpinLattice) (susc : Bund) (it : ℕ) (ch : Fin 4) : List (ℕ × ℚ) :=
  (List.range L.nBasis).flatMap fun b =>
    (List.range L.nRange).map fun r =>
      (it * memoryStepLattice L + (b * L.nRange + r),
       susc ch (L.symTransform b r ch).1)

/-- The new contents of the flat buffer of channel ch after one invocation
of _calculateCorrelation with the given iterator. -/
def calcCorrBuf (L : SpinLattice) (susc : Bund) (it : ℕ) (ch : Fin 4)
    (old : ℕ → ℚ) : ℕ → ℚ :=
  applyWrites (corrWrites L susc it ch) old

/-- The four flat correlation buffers
(_correlationsXX, _correlationsYY, _correlationsZZ, _correlationsDD). -/
structure CorrBuffers where
  bX : ℕ → ℚ
  bY : ℕ → ℚ
  bZ : ℕ → ℚ
  bD : ℕ → ℚ

/-- One invocation of _calculateCorrelation given an already evaluated
susceptibility bundle: demultiplex it into the four flat buffers. -/
def calculateCorrelation (L : SpinLattice) (susc : Bund) (it : ℕ)
    (old : CorrBuffers) : CorrBuffers where
  bX := calcCorrBuf L susc it 0 old.bX
  bY := calcCorrBuf L susc it 1 old.bY
  bZ := calcCorrBuf L susc it 2 old.bZ
  bD := calcCorrBuf L susc it 3 old.bD

/-- The full _calculateCorrelation body (lines 98-212): the offset
frequency nu is the local variable set to zero at line 101, the
susceptibility is integrated with the three-way split, then demultiplexed. -/
def calculateCorrelationFull (I : (ℚ → Bund) → ℚ → ℚ → Bund) (V : VertexModel)
    (piv gridMin gridMax cut : ℚ) (L : SpinLattice) (it : ℕ)
    (old : CorrBuffers) : CorrBuffers :=
  calculateCorrelation L (susceptibilityBundle I V piv gridMin gridMax cut 0) it old

/-- The list of sub-intervals actually integrated by the three-way split,
with the guard of each source if statement deciding membership. -/
def codeIntervals (gridMin gridMax cut nu : ℚ) : List (ℚ × ℚ) :=
  (if -(nu + cut) > gridMin then [(gridMin, -cut - nu)] else []) ++
  (if nu - cut > cut then [(-nu + cut, -cut)] else []) ++
  (if cut < gridMax then [(cut, gridMax)] else [])

/-- The breakpoints named by the claim: -cutoff-offsetFreq, -cutoff,
cutoff, together with the grid extreme bounds. -/
def claimBreakpoints (gridMin gridMax cut nu : ℚ) : List ℚ :=
  [gridMin, -cut - nu, -cut, cut, gridMax]

/-- The claim that every integrated sub-interval is obtained by splitting
the frequency domain at the claimed breakpoints, that is, both endpoints
are claimed breakpoints or grid bounds. -/
def claimSplitConforms (gridMin gridMax cut nu : ℚ) : Prop :=
  ∀ p ∈ codeIntervals gridMin gridMax cut nu,
    p.1 ∈ claimBreakpoints gridMin gridMax cut nu ∧
    p.2 ∈ claimBreakpoints gridMin gridMax cut nu

/-- The claim that every integrated sub-interval is non-empty after
clamping to the frequency grid extreme bounds. -/
def claimClampedNonempty (gridMin gridMax cut nu : ℚ) : Prop :=
  ∀ p ∈ codeIntervals gridMin gridMax cut nu,
    max p.1 gridMin ≤ min p.2 gridMax

/-- The extended breakpoint list that the source actually splits at:
the claimed breakpoints together with cutoff - offsetFreq, the left
endpoint of the middle sub-interval. -/
def codeBreakpoints (gridMin gridMax cut nu : ℚ) : List ℚ :=
  [gridMin, -cut - nu, -nu + cut, -cut, cut, gridMax]

/-- Geometry metadata written by _writeOutfileHeader (lines 227-306):
lattice basis vectors, basis-site positions, representative-site positions. -/
structure Geometry where
  latticeVectors : List (ℚ × ℚ × ℚ)
  basisPositions : List (ℚ × ℚ × ℚ)
  sitePositions : List (ℚ × ℚ × ℚ)

/-- One persisted measurement entry in the data collection of an
observable group: a group carrying a scalar cutoff attribute and the
flat buffer contents as its data array. -/
structure Snapshot where
  cutoff : ℚ
  payload : ℕ → ℚ

/-- The logical contents of one observable group of the HDF5 outfile:
an optional meta subgroup and the list of measurement subgroups in the
data collection, in creation order. Modelled from the spec: the
structured file format is specified only through its logical schema
(section 6 of the spec); HDF5 mechanics are external. -/
structure GroupState where
  meta : Option Geometry
  snaps : List Snapshot

/-- A fresh, empty observable group. -/
def emptyGroup : GroupState where
  meta := none
  snaps := []

/-- The logical contents of the observable file: the four observable
groups XYZCorXX, XYZCorYY, XYZCorZZ, XYZCorDD written by takeMeasurement. -/
structure FileState where
  gXX : GroupState
  gYY : GroupState
  gZZ : GroupState
  gDD : GroupState

/-- A fresh observable file with all four groups empty. -/
def emptyFileState : FileState where
  gXX := emptyGroup
  gYY := emptyGroup
  gZZ := emptyGroup
  gDD := emptyGroup

/-- _writeOutfileHeader (lines 214-312) on one observable group: if the
meta subgroup is absent, create it and write the geometry; otherwise skip
with a warning and leave the group unchanged. Returns the new group and
whether the metadata was written (false means the warning was logged). -/
def writeOutfileHeader (geom : Geometry) (g : GroupState) : GroupState × Bool :=
  match g.meta with
  | none => ({ g with meta := some geom }, true)
  | some _ => (g, false)

/-- The result of one _writeOutfileCorrelation call on one group. -/
structure WriteResult where
  group : GroupState
  metaWritten : Bool
  duplicateWarned : Bool

/-- _writeOutfileCorrelation (lines 314-391) on one observable group:
open or create the file and group, write the header when the meta
subgroup is absent (line 327), then enumerate existing measurement
subgroups reading their cutoff attribute; if any equals the current
cutoff exactly, log a warning and return without writing; otherwise
append a new measurement group named with the next sequential id,
carrying the cutoff attribute and the buffer contents. -/
def writeOutfileCorrelation (geom : Geometry) (currentCutoff : ℚ)
    (payload : ℕ → ℚ) (g : GroupState) : WriteResult :=
  let hm := if g.meta.isNone then writeOutfileHeader geom g else (g, false)
  if ∃ s ∈ hm.1.snaps, s.cutoff = currentCutoff then
    { group := hm.1, metaWritten := hm.2, duplicateWarned := true }
  else
    { group := { hm.1 with snaps := hm.1.snaps ++ [⟨currentCutoff, payload⟩] },
      metaWritten := hm.2, duplicateWarned := false }

/-- The mutable state owned by the measurement object: the cutoff-keyed
cache _currentCutoff and the four flat correlation buffers. -/
structure MeasState where
  currentCutoff : ℚ
  bufs : CorrBuffers

/-- The constructor (lines 19-31): _currentCutoff is set to -1.0 and the
four buffers are allocated with new float[], hence uninitialized; their
arbitrary initial contents are the argument u. -/
def initialMeasurementState (u : CorrBuffers) : MeasState where
  currentCutoff := -1
  bufs := u

/-- The result of one takeMeasurement call. -/
structure MeasResult where
  state : MeasState
  file : FileState
  recomputed : Bool

/-- takeMeasurement (lines 85-96). Modelled from the spec: the Parallel
Dispatcher (HMP load manager, not under src) is specified in section 4.4;
its calculate call reruns the registered stacks, so stack0 stores the
current flow cutoff into _currentCutoff and stack1 reruns
_calculateCorrelation, abstracted here as the argument calcB producing
the four buffers from the cutoff. calculate is invoked iff the cached
cutoff differs from the flow cutoff; afterwards, on the master task only,
the four groups are written. -/
def takeMeasurement (calcB : ℚ → CorrBuffers) (geom : Geometry)
    (flowCutoff : ℚ) (isMasterTask : Bool) (s : MeasState)
    (f : FileState) : MeasResult :=
  let recomputed : Bool := decide (s.currentCutoff ≠ flowCutoff)
  let s2 : MeasState :=
    if s.currentCutoff ≠ flowCutoff then
      { currentCutoff := flowCutoff, bufs := calcB flowCutoff }
    else s
  let f2 : FileState :=
    if isMasterTask then
      { gXX := (writeOutfileCorrelation geom s2.currentCutoff s2.bufs.bX f.gXX).group
        gYY := (writeOutfileCorrelation geom s2.currentCutoff s2.bufs.bY f.gYY).group
        gZZ := (writeOutfileCorrelation geom s2.currentCutoff s2.bufs.bZ f.gZZ).group
        gDD := (writeOutfileCorrelation geom s2.currentCutoff s2.bufs.bD f.gDD).group }
    else f
  { state := s2, file := f2, recomputed := recomputed }

/-- The number of recomputations (calculate invocations) performed over a
sequence of flow steps, each invoking takeMeasurement once. -/
def recomputeCount (calcB : ℚ → CorrBuffers) (geom : Geometry)
    (isMasterTask : Bool) (s : MeasState) (f : FileState) : List ℚ → ℕ
  | [] => 0
  | c :: cs =>
    let r := takeMeasurement calcB geom c isMasterTask s f
    (if r.recomputed then 1 else 0) +
      recomputeCount calcB geom isMasterTask r.state r.file cs

/-- The cutoff attributes of the persisted snapshots of a group, in order. -/
def snapCutoffs (g : GroupState) : List ℚ :=
  g.snaps.map Snapshot.cutoff

/-- The state of the configured output path on disk. -/
inductive OutfilePath where
  | absent : OutfilePath
  | notHdf5 : OutfilePath
  | validHdf5 (f : FileState) : OutfilePath

/-- H5Fis_hdf5, modelled from the HDF5 interface contract: positive when
the path names a valid HDF5 file, zero when the file exists but is not
HDF5, negative when the check fails (for example, no such file). -/
def h5FisHdf5 (p : OutfilePath) : Int :=
  match p with
  | .validHdf5 _ => 1
  | .notHdf5 => 0
  | .absent => -1

/-- The logical contents stored at the path, empty unless a valid HDF5
file is present. -/
def outfileContent (p : OutfilePath) : FileState :=
  match p with
  | .validHdf5 f => f
  | _ => emptyFileState

/-- The open-or-create step of _writeOutfileCorrelation (lines 319-320):
when H5Fis_hdf5 is positive the file is opened read-write, otherwise it is
created with H5F_ACC_TRUNC, truncating whatever was at the path; the
IOError exception carrying the outfile path is thrown only when the
resulting handle is invalid. The booleans openOk and createOk model
whether the respective HDF5 operation succeeds. -/
def openOrCreateOutfile (openOk createOk : Bool) (p : OutfilePath) :
    Except String FileState :=
  if h5FisHdf5 p > 0 then
    if openOk then .ok (outfileContent p)
    else .error "Could not open observable file"
  else
    if createOk then .ok emptyFileState
    else .error "Could not open observable file"

/-- Mock vertex evaluators returning constant zero: Sigma identically 0,
two-particle bundled and pointwise evaluations identically 0. -/
def mockVertex : VertexModel where
  v2 := fun _ => 0
  v4b := fun _ _ _ => bundReset
  v4p := fun _ _ _ _ => 0

/-- Lift a scalar 1-D quadrature to superbundle-valued integrands,
entrywise. -/
def liftI (Is : (ℚ → ℚ) → ℚ → ℚ → ℚ) : (ℚ → Bund) → ℚ → ℚ → Bund :=
  fun f a b ch i => Is (fun x => f x ch i) a b

/-- Modelled from the spec: exactness of the quadrature primitive
(lib/Integrator.hpp, not under src) on identically vanishing integrands. -/
def IntegratesZero (Is : (ℚ → ℚ) → ℚ → ℚ → ℚ) : Prop :=
  ∀ f a b, (∀ x, f x = 0) → Is f a b = 0

/-- Modelled from the spec: exactness of the quadrature primitive on
inverse-square integrands c / (x * x) over intervals avoiding zero, where
the exact integral is c / a - c / b. -/
def IntegratesInvSq (Is : (ℚ → ℚ) → ℚ → ℚ → ℚ) : Prop :=
  ∀ f a b c, a ≤ b → (0 < a ∨ b < 0) →
    (∀ x, a ≤ x → x ≤ b → f x = c / (x * x)) →
    Is f a b = c / a - c / b

/-- A concrete scalar quadrature that is exact on vanishing and on
inverse-square integrands over intervals avoiding zero: it reads the
integrand at the left endpoint to recover the coefficient. -/
def sampleQuadrature : (ℚ → ℚ) → ℚ → ℚ → ℚ :=
  fun f a b => f a * (a * a) * (1 / a - 1 / b)

/-- The scenario lattice of the spec (section 8): one basis site with four
representative neighbor separations, each its own representative index. -/
def scenarioLat : SpinLattice where
  nBasis := 1
  nRange := 4
  symTransform := fun _ r _ => (r, 1)
  symRel := fun _ _ => False
  sym_spec := fun _ _ h => h.elim

/-- A concrete two-separation lattice used to evaluate the footprint of
one _calculateCorrelation invocation. -/
def twoSepLat : SpinLattice where
  nBasis := 1
  nRange := 2
  symTransform := fun _ r _ => (r, 1)
  symRel := fun _ _ => False
  sym_spec := fun _ _ h => h.elim

/-- A concrete lattice whose two separations are related by a declared
symmetry: both resolve to representative index 0 in every channel. -/
def symPairLat : SpinLattice where
  nBasis := 1
  nRange := 2
  symTransform := fun _ _ _ => (0, 1)
  symRel := fun p q => p = (0, 0) ∧ q = (0, 1)
  sym_spec := fun _ _ _ _ => rfl

/-- A concrete susceptibility bundle with distinct entries. -/
def sampleSusc : Bund := fun ch i => (ch : ℕ) + 10 * i

/-- The identically zero flat buffer. -/
def zeroBuf : ℕ → ℚ := fun _ => 0

/-- The identically zero quadruple of flat buffers. -/
def zeroBufs : CorrBuffers where
  bX := zeroBuf
  bY := zeroBuf
  bZ := zeroBuf
  bD := zeroBuf

/-- A concrete superbundle-valued quadrature used to instantiate
quantified integration operators. -/
def sampleBundleQuad : (ℚ → Bund) → ℚ → ℚ → Bund := fun f a b => f a + f b

/-- A concrete superbundle-valued integrand. -/
def sampleIntegrand : ℚ → Bund := fun _ => bundReset

/-- A concrete geometry metadata record. -/
def sampleGeom : Geometry where
  latticeVectors := [(1, 0, 0), (0, 1, 0), (0, 0, 1)]
  basisPositions := [(0, 0, 0)]
  sitePositions := [(0, 0, 0), (1, 0, 0)]

/-- A group already holding one snapshot at cutoff 1, with metadata. -/
def dupGroup : GroupState where
  meta := some sampleGeom
  snaps := [⟨1, zeroBuf⟩]

/-- A file whose four groups each hold one snapshot at cutoff 1. -/
def dupFile : FileState where
  gXX := dupGroup
  gYY := dupGroup
  gZZ := dupGroup
  gDD := dupGroup

/-- A measurement state whose cutoff cache holds 1. -/
def cachedState : MeasState where
  currentCutoff := 1
  bufs := zeroBufs

/-- The per-channel weights with which the batched two-particle bundle
enters every separation entry of the inner integrand:
(-1, -1, -1, -4) for (X, Y, Z, Density). -/
def subWeight : Fin 4 → ℚ := fun ch => if ch = 3 then -4 else -1

/-- The per-channel weights of the local propagator term on the
zero-separation entry: 1/(4 pi) for X, Y, Z and 1/pi for Density. -/
def localWeight (piv : ℚ) : Fin 4 → ℚ :=
  fun ch => if ch = 3 then 1 / piv else 1 / (4 * piv)

/-- The fixed 4x4 linear mixing of the four pointwise zero-separation
vertex values added to the zero-separation entry. -/
def eggMix (vx vy vz vd : ℚ) : Fin 4 → ℚ := fun ch =>
  if ch = 0 then 0.5 * (vx - vy - vz + vd)
  else if ch = 1 then 0.5 * (-vx + vy - vz + vd)
  else if ch = 2 then 0.5 * (-vx - vy + vz + vd)
  else 2 * (vx + vy + vz + vd)

/-- The common normalization of the inner integrand: the product of four
single-particle propagator factors and 1/(4 pi squared). -/
def innerNorm (V : VertexModel) (piv nu w wp : ℚ) : ℚ :=
  1 / ((w + V.v2 w) * (w + nu + V.v2 (w + nu)) * (wp + V.v2 wp) *
    (wp + nu + V.v2 (wp + nu)) * (4 * piv * piv))

/-- The local propagator term of the outer integrand. -/
def localTerm (V : VertexModel) (nu w : ℚ) : ℚ :=
  1 / ((w + V.v2 w) * (w + nu + V.v2 (w + nu)))

/-- Applying no writes leaves the buffer unchanged. -/
theorem applyWrites_nil (f : ℕ → ℚ) : applyWrites [] f = f := rfl

/-- Unfolding one write. -/
theorem applyWrites_cons (w : ℕ × ℚ) (ws : List (ℕ × ℚ)) (f : ℕ → ℚ) :
    applyWrites (w :: ws) f = applyWrites ws (Function.update f w.1 w.2) := rfl

/-- A buffer entry not targeted by any write is unchanged. -/
theorem applyWrites_not_mem (ws : List (ℕ × ℚ)) (f : ℕ → ℚ) (k : ℕ)
    (h : ∀ p ∈ ws, p.1 ≠ k) : applyWrites ws f k = f k := by
  induction ws generalizing f with
  | nil => rfl
  | cons w ws ih =>
    rw [applyWrites_cons, ih _ fun p hp => h p (List.mem_cons_of_mem _ hp)]
    exact Function.update_noteq (Ne.symm (h w (List.mem_cons_self _ _))) _ _

/-- When the write targets are pairwise distinct, a targeted entry holds
the written value. -/
theorem applyWrites_mem (ws : List (ℕ × ℚ)) (f : ℕ → ℚ) (k : ℕ) (v : ℚ)
    (hnd : (ws.map Prod.fst).Nodup) (hmem : (k, v) ∈ ws) :
    applyWrites ws f k = v := by
  induction ws generalizing f with
  | nil => cases hmem
  | cons w ws ih =>
    rw [List.map_cons, List.nodup_cons] at hnd
    rw [applyWrites_cons]
    rcases List.mem_cons.mp hmem with heq | hm
    · subst heq
      rw [applyWrites_not_mem]
      · exact Function.update_same _ _ _
      · intro p hp hpk
        apply hnd.1
        have hmm : p.1 ∈ ws.map Prod.fst := List.mem_map_of_mem Prod.fst hp
        rwa [hpk] at hmm
    · exact ih _ hnd.2 hm

/-- Uniqueness of the (basis, range) decomposition of a flat offset. -/
theorem offsetDecompInj (n b r b2 r2 : ℕ) (hr : r < n) (hr2 : r2 < n)
    (h : b * n + r = b2 * n + r2) : b = b2 ∧ r = r2 := by
  have hn : 0 < n := Nat.lt_of_le_of_lt (Nat.zero_le r) hr
  have h1 : (n * b + r) / n = b := by
    rw [Nat.mul_add_div hn, Nat.div_eq_of_lt hr, Nat.add_zero]
  have h2 : (n * b + r) % n = r := by
    rw [Nat.mul_add_mod, Nat.mod_eq_of_lt hr]
  have h3 : (n * b2 + r2) / n = b2 := by
    rw [Nat.mul_add_div hn, Nat.div_eq_of_lt hr2, Nat.add_zero]
  have h4 : (n * b2 + r2) % n = r2 := by
    rw [Nat.mul_add_mod, Nat.mod_eq_of_lt hr2]
  have h5 : n * b + r = n * b2 + r2 := by
    rw [Nat.mul_comm n b, Nat.mul_comm n b2]; exact h
  constructor
  · rw [← h1, ← h3, h5]
  · rw [← h2, ← h4, h5]

/-- Every (basis, range) pair in range produces its write. -/
theorem corrWrites_mem (L : SpinLattice) (susc : Bund) (it : ℕ) (ch : Fin 4)
    (b r : ℕ) (hb : b < L.nBasis) (hr : r < L.nRange) :
    (it * memoryStepLattice L + (b * L.nRange + r),
      susc ch (L.symTransform b r ch).1) ∈ corrWrites L susc it ch := by
  unfold corrWrites
  exact List.mem_flatMap.mpr ⟨b, List.mem_range.mpr hb,
    List.mem_map.mpr ⟨r, List.mem_range.mpr hr, rfl⟩⟩

/-- The write targets of one invocation are pairwise distinct. -/
theorem corrWrites_keys_nodup (L : SpinLattice) (susc : Bund) (it : ℕ)
    (ch : Fin 4) : ((corrWrites L susc it ch).map Prod.fst).Nodup := by
  unfold corrWrites
  rw [List.map_flatMap]
  apply List.nodup_flatMap.mpr
  constructor
  · intro b _
    rw [List.map_map]
    refine List.Nodup.map ?_ (List.nodup_range _)
    intro r1 r2 hr
    simpa using hr
  · refine List.Pairwise.imp ?_ (List.pairwise_lt_range L.nBasis)
    intro b1 b2 hlt x hx hy
    simp only [List.map_map, List.mem_map, List.mem_range, Function.comp] at hx hy
    obtain ⟨r1, hr1, hk1⟩ := hx
    obtain ⟨r2, hr2, hk2⟩ := hy
    have hkey : b1 * L.nRange + r1 = b2 * L.nRange + r2 :=
      Nat.add_left_cancel (hk1.trans hk2.symm)
    exact absurd (offsetDecompInj L.nRange _ r1 _ r2 hr1 hr2 hkey).1 (Nat.ne_of_lt hlt)

/-- Every write target of one invocation lies in the contiguous block of
memoryStepLattice offsets starting at iterator times memoryStepLattice. -/
theorem corrWrites_key_range (L : SpinLattice) (susc : Bund) (it : ℕ)
    (ch : Fin 4) : ∀ p ∈ corrWrites L susc it ch,
    it * memoryStepLattice L ≤ p.1 ∧
      p.1 < it * memoryStepLattice L + memoryStepLattice L := by
  intro p hp
  unfold corrWrites at hp
  obtain ⟨b, hb, hp2⟩ := List.mem_flatMap.mp hp
  obtain ⟨r, hr, hp3⟩ := List.mem_map.mp hp2
  rw [List.mem_range] at hb hr
  subst hp3
  refine ⟨Nat.le_add_right _ _, Nat.add_lt_add_left ?_ _⟩
  calc b * L.nRange + r < b * L.nRange + L.nRange := Nat.add_lt_add_left hr _
    _ = (b + 1) * L.nRange := by ring
    _ ≤ L.nBasis * L.nRange := Nat.mul_le_mul_right _ hb
    _ = memoryStepLattice L := rfl

/-- Entries outside the block of one invocation are unchanged. -/
theorem calcCorrBuf_outside (L : SpinLattice) (susc : Bund) (it : ℕ)
    (ch : Fin 4) (old : ℕ → ℚ) (k : ℕ)
    (h : k < it * memoryStepLattice L ∨
      it * memoryStepLattice L + memoryStepLattice L ≤ k) :
    calcCorrBuf L susc it ch old k = old k := by
  apply applyWrites_not_mem
  intro p hp hk
  have := corrWrites_key_range L susc it ch p hp
  omega

/-- The value stored at the offset of the (basis, range) pair (b, r). -/
theorem calcCorrBuf_at (L : SpinLattice) (susc : Bund) (it : ℕ) (ch : Fin 4)
    (old : ℕ → ℚ) (b r : ℕ) (hb : b < L.nBasis) (hr : r < L.nRange) :
    calcCorrBuf L susc it ch old (it * memoryStepLattice L + (b * L.nRange + r)) =
      susc ch (L.symTransform b r ch).1 :=
  applyWrites_mem _ _ _ _ (corrWrites_keys_nodup L susc it ch)
    (corrWrites_mem L susc it ch b r hb hr)

/-- Every offset inside the block decomposes as a (basis, range) pair. -/
theorem blockDecomp (L : SpinLattice) (it k : ℕ)
    (h1 : it * memoryStepLattice L ≤ k)
    (h2 : k < it * memoryStepLattice L + memoryStepLattice L) :
    ∃ b r, b < L.nBasis ∧ r < L.nRange ∧
      k = it * memoryStepLattice L + (b * L.nRange + r) := by
  have hs : 0 < memoryStepLattice L := by omega
  have hn : 0 < L.nRange := by
    rcases Nat.eq_zero_or_pos L.nRange with h0 | h0
    · exfalso
      have : memoryStepLattice L = 0 := by
        unfold memoryStepLattice; rw [h0, Nat.mul_zero]
      omega
    · exact h0
  have hk2 : k - it * memoryStepLattice L < L.nBasis * L.nRange := by
    have : memoryStepLattice L = L.nBasis * L.nRange := rfl
    omega
  refine ⟨(k - it * memoryStepLattice L) / L.nRange,
    (k - it * memoryStepLattice L) % L.nRange,
    (Nat.div_lt_iff_lt_mul hn).mpr (by rw [Nat.mul_comm] at hk2 ⊢; exact hk2),
    Nat.mod_lt _ hn, ?_⟩
  have := Nat.div_add_mod (k - it * memoryStepLattice L) L.nRange
  have hmul : (k - it * memoryStepLattice L) / L.nRange * L.nRange =
      L.nRange * ((k - it * memoryStepLattice L) / L.nRange) := Nat.mul_comm _ _
  omega

/-- Claim C1: for every frequency w and inner frequency wp, the inner
integrand equals the claimed formula: the batched two-particle bundle
evaluated at (w+wp+offsetFreq, offsetFreq, w-wp) enters every separation
entry with per-channel weights (-1, -1, -1, -4) for (X, Y, Z, Density);
the four pointwise zero-separation vertex values are mixed as
X += 0.5(vx-vy-vz+vd), Y += 0.5(-vx+vy-vz+vd), Z += 0.5(-vx-vy+vz+vd),
Density += 2(vx+vy+vz+vd) and added only to the zero-separation entry,
the whole multiplied by the common inner normalization; and the outer
integrand adds the local term 1/((w+Sigma(w))(w+offsetFreq+Sigma(w+offsetFreq)))
only to the zero-separation entry with weights 1/(4 pi) for X, Y, Z and
1/pi for Density, on top of the inner integral. -/
theorem innerIntegrandFormula (V : VertexModel) (piv nu w wp : ℚ) (i : ℕ) :
    (∀ ch, innerKernel V piv nu w wp ch i =
      innerNorm V piv nu w wp *
        (subWeight ch * V.v4b (w + wp + nu) nu (w - wp) ch i +
         if i = 0 then
           eggMix (V.v4p (w + wp + nu) (w - wp) nu 0)
             (V.v4p (w + wp + nu) (w - wp) nu 1)
             (V.v4p (w + wp + nu) (w - wp) nu 2)
             (V.v4p (w + wp + nu) (w - wp) nu 3) ch
         else 0))
    ∧ (∀ (ch : Fin 4) (I : (ℚ → Bund) → ℚ → ℚ → Bund) (gridMin gridMax cut : ℚ),
        integralKernel I V piv gridMin gridMax cut nu w ch i =
          (if i = 0 then localTerm V nu w * localWeight piv ch else 0) +
          threeWaySplit I (innerKernel V piv nu w) gridMin gridMax cut nu ch i) := by
  constructor
  · intro ch
    fin_cases ch <;>
    · simp only [innerKernel, multSubCh, addAtZeroCh, bundReset, innerNorm,
        subWeight, eggMix, Pi.smul_apply, smul_eq_mul]
      by_cases hi : i = 0 <;> simp [hi] <;> try ring
  · intro ch I gridMin gridMax cut
    fin_cases ch <;>
    · simp only [integralKernel, addAtZeroCh, bundReset, localTerm,
        localWeight, Pi.add_apply]
      by_cases hi : i = 0 <;> simp [hi] <;> try ring


/-- Characterization of the sub-intervals actually integrated: each comes
from one of the three guarded blocks of the source. -/
theorem mem_codeIntervals {gridMin gridMax cut nu : ℚ} {p : ℚ × ℚ}
    (hp : p ∈ codeIntervals gridMin gridMax cut nu) :
    (p = (gridMin, -cut - nu) ∧ gridMin < -(nu + cut))
    ∨ (p = (-nu + cut, -cut) ∧ cut < nu - cut)
    ∨ (p = (cut, gridMax) ∧ cut < gridMax) := by
  unfold codeIntervals at hp
  rcases List.mem_append.mp hp with h | h
  · rcases List.mem_append.mp h with h | h
    · left
      split_ifs at h with hc
      · exact ⟨List.mem_singleton.mp h, by linarith⟩
      · cases h
    · right
      left
      split_ifs at h with hc
      · exact ⟨List.mem_singleton.mp h, by linarith⟩
      · cases h
  · right
    right
    split_ifs at h with hc
    · exact ⟨List.mem_singleton.mp h, hc⟩
    · cases h

/-- Claim C2, counterexample: at cutoff 1 and offset frequency 3 with grid
bounds -10 and 10, the middle integrated sub-interval is (-2, -1), whose
left endpoint -2 = cutoff - offsetFreq is none of the claimed breakpoints
-cutoff-offsetFreq, -cutoff, cutoff nor a grid bound; and with grid bounds
-1/2 and 10 the middle sub-interval (-2, -1) is integrated although it is
empty after clamping to the grid bounds. -/
theorem splitClaimCounterexample :
    ¬ claimSplitConforms (-10) 10 1 3 ∧ ¬ claimClampedNonempty (-1 / 2) 10 1 3 := by
  constructor
  · intro hconf
    have hm : ((-2 : ℚ), (-1 : ℚ)) ∈ codeIntervals (-10) 10 1 3 := by
      norm_num [codeIntervals]
    have h2 := (hconf _ hm).1
    norm_num [claimBreakpoints] at h2
  · intro hclamp
    have hm : ((-2 : ℚ), (-1 : ℚ)) ∈ codeIntervals (-1 / 2) 10 1 3 := by
      norm_num [codeIntervals]
    have h2 := hclamp _ hm
    rw [show ((-2 : ℚ), (-1 : ℚ)).1 ⊔ (-1 / 2 : ℚ) = -1 / 2 by
        norm_num [max_def],
      show ((-2 : ℚ), (-1 : ℚ)).2 ⊓ (10 : ℚ) = -1 by
        norm_num [min_def]] at h2
    norm_num at h2

/-- Claim C2 (amended): for every cutoff and offset frequency, the outer
and the inner integral are each the sum of the sub-interval integrals of
the up to three intervals (gridMin, -cutoff-offsetFreq),
(-offsetFreq+cutoff, -cutoff), (cutoff, gridMax); every integrated
sub-interval is non-empty, the first and the third are present exactly
when their breakpoint lies strictly inside the respective grid bound (a
breakpoint beyond the bound makes the sub-interval contribute zero
silently, the function being total), the middle one exactly when it is
non-empty, and all endpoints belong to the extended breakpoint list that
also contains -offsetFreq+cutoff. At offset frequency 0, the only value
the program uses, these endpoints reduce to the claimed breakpoints. -/
theorem splitStructure (I : (ℚ → Bund) → ℚ → ℚ → Bund) (V : VertexModel)
    (piv : ℚ) (f : ℚ → Bund) (gridMin gridMax cut nu : ℚ) :
    threeWaySplit I f gridMin gridMax cut nu =
        ((codeIntervals gridMin gridMax cut nu).map fun p => I f p.1 p.2).sum
    ∧ susceptibilityBundle I V piv gridMin gridMax cut nu =
        ((codeIntervals gridMin gridMax cut nu).map fun p =>
          I (integralKernel I V piv gridMin gridMax cut nu) p.1 p.2).sum
    ∧ (∀ p ∈ codeIntervals gridMin gridMax cut nu, p.1 < p.2)
    ∧ (∀ p ∈ codeIntervals gridMin gridMax cut nu,
        p.1 ∈ codeBreakpoints gridMin gridMax cut nu ∧
        p.2 ∈ codeBreakpoints gridMin gridMax cut nu)
    ∧ ((gridMin, -cut - nu) ∈ codeIntervals gridMin gridMax cut nu ∨
        -(nu + cut) ≤ gridMin)
    ∧ ((cut, gridMax) ∈ codeIntervals gridMin gridMax cut nu ∨ gridMax ≤ cut)
    ∧ (codeIntervals gridMin gridMax cut nu).length ≤ 3 := by
  have hsum : ∀ g : ℚ → Bund, threeWaySplit I g gridMin gridMax cut nu =
      ((codeIntervals gridMin gridMax cut nu).map fun p => I g p.1 p.2).sum := by
    intro g
    unfold threeWaySplit codeIntervals
    split_ifs <;>
      simp [List.map_append, List.sum_append, add_assoc]
  refine ⟨hsum f, hsum _, ?_, ?_, ?_, ?_, ?_⟩
  · intro p hp
    rcases mem_codeIntervals hp with ⟨rfl, hc⟩ | ⟨rfl, hc⟩ | ⟨rfl, hc⟩ <;>
      dsimp only <;> linarith
  · intro p hp
    rcases mem_codeIntervals hp with ⟨rfl, hc⟩ | ⟨rfl, hc⟩ | ⟨rfl, hc⟩ <;>
      constructor <;> simp [codeBreakpoints]
  · by_cases h1 : -(nu + cut) > gridMin
    · left
      have hmem : (gridMin, -cut - nu) ∈
          (if -(nu + cut) > gridMin then [(gridMin, -cut - nu)] else
            ([] : List (ℚ × ℚ))) := by
        rw [if_pos h1]
        exact List.mem_singleton_self _
      exact List.mem_append.mpr (Or.inl (List.mem_append.mpr (Or.inl hmem)))
    · right
      linarith
  · by_cases h3 : cut < gridMax
    · left
      have hmem : (cut, gridMax) ∈
          (if cut < gridMax then [(cut, gridMax)] else ([] : List (ℚ × ℚ))) := by
        rw [if_pos h3]
        exact List.mem_singleton_self _
      exact List.mem_append.mpr (Or.inr hmem)
    · right
      linarith
  · unfold codeIntervals
    split_ifs <;> simp

/-- Witness for the amended claim C2 at a concrete quadrature, integrand
and parameter values. -/
theorem splitStructure_w :
    threeWaySplit sampleBundleQuad sampleIntegrand (-10) 10 1 3 =
      ((codeIntervals (-10) 10 1 3).map fun p =>
        sampleBundleQuad sampleIntegrand p.1 p.2).sum
    ∧ (∀ p ∈ codeIntervals (-10) 10 1 3, p.1 < p.2) :=
  ⟨(splitStructure sampleBundleQuad mockVertex 1 sampleIntegrand (-10) 10 1 3).1,
   (splitStructure sampleBundleQuad mockVertex 1 sampleIntegrand (-10) 10 1 3).2.2.1⟩

/-- Claim C3, counterexample: one invocation of the per-index compute
callback with iterator 0 on a lattice with two separations also mutates
the buffer entry at offset 1, not only the entry at offset 0: starting
from the zero buffer, the entry at offset 1 changes. -/
theorem corrFootprintCounterexample :
    calcCorrBuf twoSepLat sampleSusc 0 0 zeroBuf 1 ≠ zeroBuf 1 := by
  have h2 : calcCorrBuf twoSepLat sampleSusc 0 0 zeroBuf 1 = 10 := by
    have h := calcCorrBuf_at twoSepLat sampleSusc 0 0 zeroBuf 0 1
      (by norm_num [twoSepLat]) (by norm_num [twoSepLat])
    simpa [twoSepLat, memoryStepLattice, sampleSusc] using h
  rw [h2]
  norm_num [zeroBuf]

/-- Claim C3 (amended): one invocation of the per-index compute callback
with iterator it mutates exactly the contiguous block of
memoryStepLattice entries starting at offset it * memoryStepLattice of
each of the four flat buffers (the source writes the whole buffer in one
invocation, and only iterator 0 is registered) and nothing else; the new
values inside the block do not depend on any prior buffer contents, and
the blocks of distinct iterators are disjoint, so the per-iterator work
remains independent under arbitrary partitioning. -/
theorem corrFootprint (L : SpinLattice) (susc : Bund) (it : ℕ) (ch : Fin 4)
    (old : ℕ → ℚ) (k : ℕ) :
    ((k < it * memoryStepLattice L ∨
        it * memoryStepLattice L + memoryStepLattice L ≤ k) →
      calcCorrBuf L susc it ch old k = old k)
    ∧ (∀ old2 : ℕ → ℚ, it * memoryStepLattice L ≤ k →
        k < it * memoryStepLattice L + memoryStepLattice L →
        calcCorrBuf L susc it ch old k = calcCorrBuf L susc it ch old2 k)
    ∧ (∀ it2 : ℕ, it ≠ it2 →
        ¬(it * memoryStepLattice L ≤ k ∧
          k < it * memoryStepLattice L + memoryStepLattice L ∧
          it2 * memoryStepLattice L ≤ k ∧
          k < it2 * memoryStepLattice L + memoryStepLattice L)) := by
  have hblock : ∀ a b : ℕ, a < b →
      k < a * memoryStepLattice L + memoryStepLattice L →
      b * memoryStepLattice L ≤ k → False := by
    intro a b hab hka hkb
    have h1 : (a + 1) * memoryStepLattice L ≤ b * memoryStepLattice L :=
      Nat.mul_le_mul_right _ (Nat.succ_le_of_lt hab)
    have h2 : a * memoryStepLattice L + memoryStepLattice L =
        (a + 1) * memoryStepLattice L := by ring
    rw [h2] at hka
    exact Nat.lt_irrefl k (Nat.lt_of_lt_of_le (Nat.lt_of_lt_of_le hka h1) hkb)
  refine ⟨calcCorrBuf_outside L susc it ch old k, ?_, ?_⟩
  · intro old2 h1 h2
    obtain ⟨b, r, hb, hr, rfl⟩ := blockDecomp L it k h1 h2
    rw [calcCorrBuf_at L susc it ch old b r hb hr,
      calcCorrBuf_at L susc it ch old2 b r hb hr]
  · rintro it2 hne ⟨h1, h2, h3, h4⟩
    rcases Nat.lt_or_ge it it2 with hlt | hge
    · exact hblock it it2 hlt h2 h3
    · exact hblock it2 it (Nat.lt_of_le_of_ne hge fun hh => hne hh.symm) h4 h1

/-- Witness for the amended claim C3: on the two-separation lattice the
entry at offset 5, outside the block of iterator 0, is unchanged. -/
theorem corrFootprint_w :
    calcCorrBuf twoSepLat sampleSusc 0 0 zeroBuf 5 = zeroBuf 5 :=
  (corrFootprint twoSepLat sampleSusc 0 0 zeroBuf 5).1
    (by norm_num [memoryStepLattice, twoSepLat])

/-- Claim C6: for any two separation indices whose site pairs are related
by a declared lattice symmetry, the values stored by the demultiplexing
loop in the flat output buffers are identical in every channel, because
both pairs resolve through the Symmetry Map to the same representative
index. -/
theorem symClosure (L : SpinLattice) (susc : Bund) (it : ℕ)
    (old : CorrBuffers) (p q : ℕ × ℕ) (hrel : L.symRel p q)
    (hpb : p.1 < L.nBasis) (hpr : p.2 < L.nRange)
    (hqb : q.1 < L.nBasis) (hqr : q.2 < L.nRange) :
    ((calculateCorrelation L susc it old).bX
        (it * memoryStepLattice L + (p.1 * L.nRange + p.2)) =
      (calculateCorrelation L susc it old).bX
        (it * memoryStepLattice L + (q.1 * L.nRange + q.2)))
    ∧ ((calculateCorrelation L susc it old).bY
        (it * memoryStepLattice L + (p.1 * L.nRange + p.2)) =
      (calculateCorrelation L susc it old).bY
        (it * memoryStepLattice L + (q.1 * L.nRange + q.2)))
    ∧ ((calculateCorrelation L susc it old).bZ
        (it * memoryStepLattice L + (p.1 * L.nRange + p.2)) =
      (calculateCorrelation L susc it old).bZ
        (it * memoryStepLattice L + (q.1 * L.nRange + q.2)))
    ∧ ((calculateCorrelation L susc it old).bD
        (it * memoryStepLattice L + (p.1 * L.nRange + p.2)) =
      (calculateCorrelation L susc it old).bD
        (it * memoryStepLattice L + (q.1 * L.nRange + q.2))) := by
  have key : ∀ (ch : Fin 4) (o : ℕ → ℚ),
      calcCorrBuf L susc it ch o
          (it * memoryStepLattice L + (p.1 * L.nRange + p.2)) =
        calcCorrBuf L susc it ch o
          (it * memoryStepLattice L + (q.1 * L.nRange + q.2)) := by
    intro ch o
    rw [calcCorrBuf_at L susc it ch o p.1 p.2 hpb hpr,
      calcCorrBuf_at L susc it ch o q.1 q.2 hqb hqr,
      L.sym_spec p q hrel ch]
  exact ⟨key 0 old.bX, key 1 old.bY, key 2 old.bZ, key 3 old.bD⟩

/-- Witness for claim C6: on the concrete symmetric lattice, the X buffer
holds equal values at the two symmetry-related separations. -/
theorem symClosure_w :
    (calculateCorrelation symPairLat sampleSusc 0 zeroBufs).bX
        (0 * memoryStepLattice symPairLat + (0 * symPairLat.nRange + 0)) =
      (calculateCorrelation symPairLat sampleSusc 0 zeroBufs).bX
        (0 * memoryStepLattice symPairLat + (0 * symPairLat.nRange + 1)) :=
  (symClosure symPairLat sampleSusc 0 zeroBufs (0, 0) (0, 1) ⟨rfl, rfl⟩
    (by norm_num [symPairLat]) (by norm_num [symPairLat])
    (by norm_num [symPairLat]) (by norm_num [symPairLat])).1

/-- Membership in the stored cutoff attributes is existence of a snapshot
with that cutoff. -/
theorem mem_snapCutoffs {c : ℚ} {g : GroupState} :
    c ∈ snapCutoffs g ↔ ∃ s ∈ g.snaps, s.cutoff = c := by
  simp [snapCutoffs]

/-- Evaluation of one snapshot write: the snapshot list gains the entry
exactly when no stored cutoff matches, the duplicate warning fires exactly
when one does, and the metadata is created exactly when absent, never
overwritten. -/
theorem writeCorrEval (geom : Geometry) (c : ℚ) (payload : ℕ → ℚ)
    (g : GroupState) :
    ((writeOutfileCorrelation geom c payload g).group.snaps =
      if c ∈ snapCutoffs g then g.snaps else g.snaps ++ [⟨c, payload⟩])
    ∧ ((writeOutfileCorrelation geom c payload g).duplicateWarned =
        decide (c ∈ snapCutoffs g))
    ∧ ((writeOutfileCorrelation geom c payload g).group.meta =
        if g.meta.isNone then some geom else g.meta)
    ∧ ((writeOutfileCorrelation geom c payload g).metaWritten =
        g.meta.isNone) := by
  have hsnaps : (if g.meta.isNone then writeOutfileHeader geom g
      else (g, false)).1.snaps = g.snaps := by
    rcases hg : g.meta with _ | m <;>
      simp [writeOutfileHeader, hg]
  have hmeta : (if g.meta.isNone then writeOutfileHeader geom g
      else (g, false)).1.meta = if g.meta.isNone then some geom else g.meta := by
    rcases hg : g.meta with _ | m <;>
      simp [writeOutfileHeader, hg]
  have hmw : (if g.meta.isNone then writeOutfileHeader geom g
      else (g, false)).2 = g.meta.isNone := by
    rcases hg : g.meta with _ | m <;>
      simp [writeOutfileHeader, hg]
  by_cases hc : ∃ s ∈ g.snaps, s.cutoff = c
  · have hcc : c ∈ snapCutoffs g := mem_snapCutoffs.mpr hc
    simp only [writeOutfileCorrelation, hsnaps, if_pos hc, if_pos hcc,
      hmeta, hmw, hcc, decide_eq_true_eq]
    simp [hcc]
  · have hcc : c ∉ snapCutoffs g := fun hm => hc (mem_snapCutoffs.mp hm)
    simp only [writeOutfileCorrelation, hsnaps, if_neg hc, if_neg hcc,
      hmeta, hmw]
    simp [hcc]

/-- On a run of identical flow cutoffs matching the cache, no
recomputation occurs at all. -/
theorem recomputeReplicateZero (calcB : ℚ → CorrBuffers) (geom : Geometry)
    (m : Bool) (c : ℚ) : ∀ (n : ℕ) (s : MeasState) (f : FileState),
    s.currentCutoff = c →
    recomputeCount calcB geom m s f (List.replicate n c) = 0 := by
  intro n
  induction n with
  | zero =>
    intro s f _
    simp [recomputeCount]
  | succ k ih =>
    intro s f h
    rw [List.replicate_succ]
    simp only [recomputeCount]
    have hrec : (takeMeasurement calcB geom c m s f).recomputed = false := by
      simp [takeMeasurement, h]
    have hst : (takeMeasurement calcB geom c m s f).state = s := by
      simp [takeMeasurement, h]
    rw [hrec, hst]
    simp [ih s _ h]

/-- Over any run of identical flow cutoffs, at most one recomputation
occurs, whatever the initial cache. -/
theorem recomputeReplicateLe (calcB : ℚ → CorrBuffers) (geom : Geometry)
    (m : Bool) (c : ℚ) : ∀ (n : ℕ) (s : MeasState) (f : FileState),
    recomputeCount calcB geom m s f (List.replicate n c) ≤ 1 := by
  intro n s f
  cases n with
  | zero =>
    simp [recomputeCount]
  | succ k =>
    rw [List.replicate_succ]
    simp only [recomputeCount]
    by_cases h : s.currentCutoff = c
    · have hrec : (takeMeasurement calcB geom c m s f).recomputed = false := by
        simp [takeMeasurement, h]
      have hst : (takeMeasurement calcB geom c m s f).state = s := by
        simp [takeMeasurement, h]
      rw [hrec, hst, recomputeReplicateZero calcB geom m c k s _ h]
      simp
    · have hrec : (takeMeasurement calcB geom c m s f).recomputed = true := by
        simp [takeMeasurement, h]
      have hst : (takeMeasurement calcB geom c m s f).state.currentCutoff = c := by
        simp [takeMeasurement, h]
      rw [hrec, recomputeReplicateZero calcB geom m c k _ _ hst]
      simp

/-- Claim C4: when the flow cutoff equals the cached cutoff, the
take-measurement operation triggers no recomputation (the dispatcher
calculate call is skipped, so no vertex evaluations occur) and, when each
group already holds a snapshot at that cutoff, no second snapshot is
persisted; moreover over any run of measurement invocations at one
cutoff value at most one recomputation occurs, so recomputation is at
most once per distinct cutoff value of a monotone flow, never once per
invocation. -/
theorem measurementMemoization (calcB : ℚ → CorrBuffers) (geom : Geometry)
    (isMasterTask : Bool) (s : MeasState) (f : FileState) (c : ℚ)
    (hcache : s.currentCutoff = c)
    (hx : c ∈ snapCutoffs f.gXX) (hy : c ∈ snapCutoffs f.gYY)
    (hz : c ∈ snapCutoffs f.gZZ) (hd : c ∈ snapCutoffs f.gDD) :
    (takeMeasurement calcB geom c isMasterTask s f).recomputed = false
    ∧ (takeMeasurement calcB geom c isMasterTask s f).state = s
    ∧ (takeMeasurement calcB geom c isMasterTask s f).file.gXX.snaps = f.gXX.snaps
    ∧ (takeMeasurement calcB geom c isMasterTask s f).file.gYY.snaps = f.gYY.snaps
    ∧ (takeMeasurement calcB geom c isMasterTask s f).file.gZZ.snaps = f.gZZ.snaps
    ∧ (takeMeasurement calcB geom c isMasterTask s f).file.gDD.snaps = f.gDD.snaps
    ∧ (∀ (n : ℕ) (s0 : MeasState) (f0 : FileState),
        recomputeCount calcB geom isMasterTask s0 f0 (List.replicate n c) ≤ 1) := by
  have hrec : (takeMeasurement calcB geom c isMasterTask s f).recomputed = false := by
    simp [takeMeasurement, hcache]
  have hst : (takeMeasurement calcB geom c isMasterTask s f).state = s := by
    simp [takeMeasurement, hcache]
  have hfile : (takeMeasurement calcB geom c isMasterTask s f).file =
      if isMasterTask then
        { gXX := (writeOutfileCorrelation geom c s.bufs.bX f.gXX).group
          gYY := (writeOutfileCorrelation geom c s.bufs.bY f.gYY).group
          gZZ := (writeOutfileCorrelation geom c s.bufs.bZ f.gZZ).group
          gDD := (writeOutfileCorrelation geom c s.bufs.bD f.gDD).group }
      else f := by
    simp [takeMeasurement, hcache]
  refine ⟨hrec, hst, ?_, ?_, ?_, ?_,
    fun n s0 f0 => recomputeReplicateLe calcB geom isMasterTask c n s0 f0⟩ <;>
    rw [hfile] <;>
    cases isMasterTask <;>
    simp only [if_true, if_false, Bool.false_eq_true, ite_false, ite_true]
  · rw [(writeCorrEval geom c s.bufs.bX f.gXX).1, if_pos hx]
  · rw [(writeCorrEval geom c s.bufs.bY f.gYY).1, if_pos hy]
  · rw [(writeCorrEval geom c s.bufs.bZ f.gZZ).1, if_pos hz]
  · rw [(writeCorrEval geom c s.bufs.bD f.gDD).1, if_pos hd]

/-- Witness for claim C4 at a concrete state whose cache matches the flow
cutoff 1 and a file already holding snapshots at cutoff 1. -/
theorem measurementMemoization_w :
    (takeMeasurement (fun _ => zeroBufs) sampleGeom 1 true cachedState
      dupFile).recomputed = false ∧
    (takeMeasurement (fun _ => zeroBufs) sampleGeom 1 true cachedState
      dupFile).file.gXX.snaps = dupFile.gXX.snaps :=
  ⟨(measurementMemoization (fun _ => zeroBufs) sampleGeom true cachedState
      dupFile 1 rfl (by simp [snapCutoffs, dupFile, dupGroup])
      (by simp [snapCutoffs, dupFile, dupGroup])
      (by simp [snapCutoffs, dupFile, dupGroup])
      (by simp [snapCutoffs, dupFile, dupGroup])).1,
   (measurementMemoization (fun _ => zeroBufs) sampleGeom true cachedState
      dupFile 1 rfl (by simp [snapCutoffs, dupFile, dupGroup])
      (by simp [snapCutoffs, dupFile, dupGroup])
      (by simp [snapCutoffs, dupFile, dupGroup])
      (by simp [snapCutoffs, dupFile, dupGroup])).2.2.1⟩

/-- Claim C5: when a snapshot write finds an existing entry whose stored
cutoff equals the current cutoff by exact equality, it warns once and
discards the new snapshot without writing; writing snapshots at cutoffs
1, then 1 again, then 1/2 into a fresh group persists exactly the two
snapshots with cutoffs 1 and 1/2 and fires exactly one duplicate
warning. -/
theorem snapshotDedup (geom : Geometry) (c : ℚ) (payload : ℕ → ℚ)
    (g : GroupState) (h : c ∈ snapCutoffs g) :
    ((writeOutfileCorrelation geom c payload g).group.snaps = g.snaps
     ∧ (writeOutfileCorrelation geom c payload g).duplicateWarned = true)
    ∧ ∀ p1 p2 p3 : ℕ → ℚ,
        snapCutoffs (writeOutfileCorrelation geom (1 / 2) p3
            (writeOutfileCorrelation geom 1 p2
              (writeOutfileCorrelation geom 1 p1 emptyGroup).group).group).group
          = [1, 1 / 2]
        ∧ (((if (writeOutfileCorrelation geom 1 p1
                emptyGroup).duplicateWarned then 1 else 0)
            + (if (writeOutfileCorrelation geom 1 p2
                (writeOutfileCorrelation geom 1 p1
                  emptyGroup).group).duplicateWarned then 1 else 0)
            + (if (writeOutfileCorrelation geom (1 / 2) p3
                (writeOutfileCorrelation geom 1 p2
                  (writeOutfileCorrelation geom 1 p1
                    emptyGroup).group).group).duplicateWarned then 1 else 0) : ℕ)
          = 1) := by
  constructor
  · exact ⟨by rw [(writeCorrEval geom c payload g).1, if_pos h],
      by rw [(writeCorrEval geom c payload g).2.1]; simp [h]⟩
  · intro p1 p2 p3
    have he : (1 : ℚ) ∉ snapCutoffs emptyGroup := by
      simp [snapCutoffs, emptyGroup]
    have h1s : (writeOutfileCorrelation geom 1 p1 emptyGroup).group.snaps =
        [⟨1, p1⟩] := by
      rw [(writeCorrEval geom 1 p1 emptyGroup).1, if_neg he]
      simp [emptyGroup]
    have h1w : (writeOutfileCorrelation geom 1 p1 emptyGroup).duplicateWarned =
        false := by
      rw [(writeCorrEval geom 1 p1 emptyGroup).2.1]
      exact decide_eq_false he
    have hm2 : (1 : ℚ) ∈ snapCutoffs
        (writeOutfileCorrelation geom 1 p1 emptyGroup).group := by
      simp [snapCutoffs, h1s]
    have h2s : (writeOutfileCorrelation geom 1 p2
        (writeOutfileCorrelation geom 1 p1 emptyGroup).group).group.snaps =
        [⟨1, p1⟩] := by
      rw [(writeCorrEval geom 1 p2 _).1, if_pos hm2, h1s]
    have h2w : (writeOutfileCorrelation geom 1 p2
        (writeOutfileCorrelation geom 1 p1 emptyGroup).group).duplicateWarned =
        true := by
      rw [(writeCorrEval geom 1 p2 _).2.1]
      exact decide_eq_true hm2
    have hm3 : (1 / 2 : ℚ) ∉ snapCutoffs (writeOutfileCorrelation geom 1 p2
        (writeOutfileCorrelation geom 1 p1 emptyGroup).group).group := by
      rw [snapCutoffs, h2s]
      norm_num
    have h3s : (writeOutfileCorrelation geom (1 / 2) p3
        (writeOutfileCorrelation geom 1 p2
          (writeOutfileCorrelation geom 1 p1
            emptyGroup).group).group).group.snaps =
        [⟨1, p1⟩, ⟨1 / 2, p3⟩] := by
      rw [(writeCorrEval geom (1 / 2) p3 _).1, if_neg hm3, h2s]
      rfl
    have h3w : (writeOutfileCorrelation geom (1 / 2) p3
        (writeOutfileCorrelation geom 1 p2
          (writeOutfileCorrelation geom 1 p1
            emptyGroup).group).group).duplicateWarned = false := by
      rw [(writeCorrEval geom (1 / 2) p3 _).2.1]
      exact decide_eq_false hm3
    refine ⟨?_, ?_⟩
    · rw [snapCutoffs, h3s]
      simp
    · rw [h1w, h2w, h3w]
      simp

/-- Witness for claim C5: a duplicate write at cutoff 1 on a group that
already holds a snapshot at cutoff 1 changes nothing and warns. -/
theorem snapshotDedup_w :
    (writeOutfileCorrelation sampleGeom 1 zeroBuf dupGroup).group.snaps =
      dupGroup.snaps
    ∧ (writeOutfileCorrelation sampleGeom 1 zeroBuf dupGroup).duplicateWarned =
        true :=
  (snapshotDedup sampleGeom 1 zeroBuf dupGroup
    (by simp [snapCutoffs, dupGroup])).1

/-- Claim C8: the geometry metadata is written only when the meta
subgroup is absent and never overwritten: a header call on a group that
already has metadata is a pure warning, a snapshot write preserves
existing metadata, and writing snapshots at the two cutoffs 1 and 1/2
into a fresh group creates the metadata exactly once. -/
theorem metaSingleton (geom geom2 : Geometry) (c : ℚ) (payload : ℕ → ℚ)
    (g : GroupState) (m : Geometry) (hm : g.meta = some m) :
    (writeOutfileHeader geom2 g = (g, false)
     ∧ (writeOutfileCorrelation geom2 c payload g).group.meta = some m)
    ∧ ∀ p1 p2 : ℕ → ℚ,
        (writeOutfileCorrelation geom (1 / 2) p2
            (writeOutfileCorrelation geom 1 p1
              emptyGroup).group).group.meta = some geom
        ∧ (writeOutfileCorrelation geom 1 p1 emptyGroup).metaWritten = true
        ∧ (writeOutfileCorrelation geom (1 / 2) p2
            (writeOutfileCorrelation geom 1 p1
              emptyGroup).group).metaWritten = false := by
  constructor
  · constructor
    · simp [writeOutfileHeader, hm]
    · rw [(writeCorrEval geom2 c payload g).2.2.1, hm]
      simp
  · intro p1 p2
    have h1m : (writeOutfileCorrelation geom 1 p1 emptyGroup).group.meta =
        some geom := by
      rw [(writeCorrEval geom 1 p1 emptyGroup).2.2.1]
      simp [emptyGroup]
    refine ⟨?_, ?_, ?_⟩
    · rw [(writeCorrEval geom (1 / 2) p2 _).2.2.1, h1m]
      simp
    · rw [(writeCorrEval geom 1 p1 emptyGroup).2.2.2]
      simp [emptyGroup]
    · rw [(writeCorrEval geom (1 / 2) p2 _).2.2.2, h1m]
      simp

/-- Witness for claim C8: a header call on a group with existing metadata
leaves it unchanged and only warns. -/
theorem metaSingleton_w :
    writeOutfileHeader sampleGeom dupGroup = (dupGroup, false) :=
  ((metaSingleton sampleGeom sampleGeom 1 zeroBuf dupGroup sampleGeom rfl).1).1

/-- Claim C9: the cutoff cache is initialized to -1.0 at construction, so
a first take-measurement invocation at flow cutoff exactly -1.0 skips the
recomputation entirely and persists the never-computed buffer contents u,
whatever they are, as the first snapshot of each group. -/
theorem uninitializedPersist (calcB : ℚ → CorrBuffers) (geom : Geometry)
    (u : CorrBuffers) :
    (initialMeasurementState u).currentCutoff = -1
    ∧ (takeMeasurement calcB geom (-1) true (initialMeasurementState u)
        emptyFileState).recomputed = false
    ∧ (takeMeasurement calcB geom (-1) true (initialMeasurementState u)
        emptyFileState).state.bufs = u
    ∧ (takeMeasurement calcB geom (-1) true (initialMeasurementState u)
        emptyFileState).file.gXX.snaps = [⟨-1, u.bX⟩]
    ∧ (takeMeasurement calcB geom (-1) true (initialMeasurementState u)
        emptyFileState).file.gYY.snaps = [⟨-1, u.bY⟩]
    ∧ (takeMeasurement calcB geom (-1) true (initialMeasurementState u)
        emptyFileState).file.gZZ.snaps = [⟨-1, u.bZ⟩]
    ∧ (takeMeasurement calcB geom (-1) true (initialMeasurementState u)
        emptyFileState).file.gDD.snaps = [⟨-1, u.bD⟩] := by
  have hkey : ∀ pay : ℕ → ℚ,
      (writeOutfileCorrelation geom (-1) pay emptyGroup).group.snaps =
        [⟨-1, pay⟩] := by
    intro pay
    rw [(writeCorrEval geom (-1) pay emptyGroup).1, if_neg (by
      simp [snapCutoffs, emptyGroup])]
    simp [emptyGroup]
  refine ⟨rfl, ?_, ?_, ?_, ?_, ?_, ?_⟩ <;>
    simp [takeMeasurement, initialMeasurementState, emptyFileState, hkey]

/-- Claim C10: when the configured output path holds a file that is not a
valid HDF5 file, the snapshot write raises no I/O error: H5Fis_hdf5 is
not positive, so the file is created with truncation, replacing the old
contents with a fresh empty file; the fatal I/O error is raised exactly
when the open-or-create HDF5 operation itself fails. -/
theorem outfileTruncateCreate (openOk createOk : Bool) (p : OutfilePath) :
    (createOk = true →
      openOrCreateOutfile openOk createOk OutfilePath.notHdf5 =
        Except.ok emptyFileState)
    ∧ ((∃ e, openOrCreateOutfile openOk createOk p = Except.error e) ↔
        (if h5FisHdf5 p > 0 then openOk = false else createOk = false)) := by
  constructor
  · intro hc
    subst hc
    simp [openOrCreateOutfile, h5FisHdf5]
  · cases p <;> cases openOk <;> cases createOk <;>
      simp [openOrCreateOutfile, h5FisHdf5]

/-- Witness for claim C10: an existing non-HDF5 file is truncated into a
fresh store without an error. -/
theorem outfileTruncateCreate_w :
    openOrCreateOutfile true true OutfilePath.notHdf5 =
      Except.ok emptyFileState :=
  (outfileTruncateCreate true true OutfilePath.notHdf5).1 rfl

/-- The concrete sample quadrature is exact on vanishing integrands. -/
theorem sampleQuadratureZero : IntegratesZero sampleQuadrature := by
  intro f a b hf
  simp [sampleQuadrature, hf]

/-- The concrete sample quadrature is exact on inverse-square integrands
over intervals avoiding zero. -/
theorem sampleQuadratureInvSq : IntegratesInvSq sampleQuadrature := by
  intro f a b c hab h0 hf
  have ha : a ≠ 0 := by
    rcases h0 with h | h
    · exact ne_of_gt h
    · exact ne_of_lt (lt_of_le_of_lt hab h)
  have hfa : f a = c / (a * a) := hf a le_rfl hab
  simp only [sampleQuadrature]
  rw [hfa, div_mul_cancel₀ _ (mul_ne_zero ha ha), mul_sub, mul_one_div,
    mul_one_div]

/-- With the constant-zero mock vertex evaluators, the inner integrand
vanishes identically. -/
theorem innerKernel_mockVertex (piv nu w wp : ℚ) (ch : Fin 4) (i : ℕ) :
    innerKernel mockVertex piv nu w wp ch i = 0 := by
  fin_cases ch <;>
  · simp only [innerKernel, multSubCh, addAtZeroCh, bundReset, mockVertex,
      Pi.smul_apply, smul_eq_mul]
    by_cases hi : i = 0 <;> simp [hi]

/-- The three-way split of an integrand whose (ch, i) entry vanishes
identically contributes zero to that entry, for any quadrature exact on
vanishing integrands. -/
theorem threeWaySplit_pointwiseZero (Is : (ℚ → ℚ) → ℚ → ℚ → ℚ)
    (hz : IntegratesZero Is) (f : ℚ → Bund) (gm gM cut nu : ℚ)
    (ch : Fin 4) (i : ℕ) (hf : ∀ x, f x ch i = 0) :
    threeWaySplit (liftI Is) f gm gM cut nu ch i = 0 := by
  have h : ∀ a b : ℚ, liftI Is f a b ch i = 0 :=
    fun a b => hz (fun x => f x ch i) a b hf
  unfold threeWaySplit
  rw [Pi.add_apply, Pi.add_apply]
  split_ifs <;> simp [h]

/-- With the mock vertex evaluators, the outer integrand holds only the
local propagator term: its (ch, i) entry with i nonzero vanishes. -/
theorem integralKernelMockOffZero (Is : (ℚ → ℚ) → ℚ → ℚ → ℚ)
    (hz : IntegratesZero Is) (piv gm gM cut nu w : ℚ) (ch : Fin 4) (i : ℕ)
    (hi : i ≠ 0) :
    integralKernel (liftI Is) mockVertex piv gm gM cut nu w ch i = 0 := by
  simp only [integralKernel, Pi.add_apply]
  rw [threeWaySplit_pointwiseZero Is hz _ _ _ _ _ ch i
    (fun wp => innerKernel_mockVertex piv nu w wp ch i)]
  simp [addAtZeroCh, bundReset, hi]

/-- With the mock vertex evaluators, the Density entry of the outer
integrand at zero separation is the local term weighted by 1/pi. -/
theorem integralKernelMockDensity (Is : (ℚ → ℚ) → ℚ → ℚ → ℚ)
    (hz : IntegratesZero Is) (piv gm gM cut w : ℚ) :
    integralKernel (liftI Is) mockVertex piv gm gM cut 0 w 3 0 =
      (1 / piv) / (w * w) := by
  simp only [integralKernel, Pi.add_apply]
  rw [threeWaySplit_pointwiseZero Is hz _ _ _ _ _ 3 0
    (fun wp => innerKernel_mockVertex piv 0 w wp 3 0)]
  simp [addAtZeroCh, bundReset, mockVertex]
  rw [div_eq_mul_inv, div_eq_mul_inv, mul_inv]
  ring

/-- Scenario susceptibility: every nonzero-separation entry vanishes. -/
theorem susceptibilityMockOffZero (Is : (ℚ → ℚ) → ℚ → ℚ → ℚ)
    (hz : IntegratesZero Is) (piv : ℚ) (ch : Fin 4) (i : ℕ) (hi : i ≠ 0) :
    susceptibilityBundle (liftI Is) mockVertex piv (-2) 2 1 0 ch i = 0 := by
  unfold susceptibilityBundle
  exact threeWaySplit_pointwiseZero Is hz _ _ _ _ _ ch i
    (fun w => integralKernelMockOffZero Is hz piv (-2) 2 1 0 w ch i hi)

/-- Scenario susceptibility: the Density entry at zero separation is the
integral of the local term, 1/pi, for any quadrature exact on the two
integrand families that occur. -/
theorem susceptibilityMockDensity (Is : (ℚ → ℚ) → ℚ → ℚ → ℚ)
    (hz : IntegratesZero Is) (hinv : IntegratesInvSq Is) (piv : ℚ) :
    susceptibilityBundle (liftI Is) mockVertex piv (-2) 2 1 0 3 0 = 1 / piv := by
  unfold susceptibilityBundle threeWaySplit
  rw [if_pos (by norm_num : -((0 : ℚ) + 1) > -2),
    if_neg (by norm_num : ¬((0 : ℚ) - 1 > 1)),
    if_pos (by norm_num : (1 : ℚ) < 2)]
  have haddB : ∀ (f g : Bund) (ch : Fin 4) (i : ℕ),
      (f + g) ch i = f ch i + g ch i := fun _ _ _ _ => rfl
  have hzeroB : ∀ (ch : Fin 4) (i : ℕ), (0 : Bund) ch i = 0 := fun _ _ => rfl
  rw [haddB, haddB, hzeroB, zero_add]
  have h1 : liftI Is (integralKernel (liftI Is) mockVertex piv (-2) 2 1 0)
      (-2) (-1 - 0) 3 0 = (1 / piv) / (-2) - (1 / piv) / (-1 - 0) := by
    apply hinv
    · norm_num
    · right
      norm_num
    · intro x _ _
      exact integralKernelMockDensity Is hz piv (-2) 2 1 x
  have h2 : liftI Is (integralKernel (liftI Is) mockVertex piv (-2) 2 1 0)
      1 2 3 0 = (1 / piv) / 1 - (1 / piv) / 2 := by
    apply hinv
    · norm_num
    · left
      norm_num
    · intro x _ _
      exact integralKernelMockDensity Is hz piv (-2) 2 1 x
  rw [h1, h2]
  ring

/-- Claim C7: on a lattice with 1 basis site and 4 representative
separations, mock vertex evaluators returning constant zero, the
frequency grid with extreme bounds -2 and 2 (the grid -2,-1,0,1,2; the
kernel reads only the extreme bounds), cutoff 1 and offset frequency 0,
the computed Density channel at separation 0 equals 1/(1*1)/pi and the
value of every channel at every nonzero separation equals 0, for any
quadrature exact on the integrands that occur. -/
theorem correlationScenario (piv : ℚ) (Is : (ℚ → ℚ) → ℚ → ℚ → ℚ)
    (old : CorrBuffers) (hz : IntegratesZero Is) (hinv : IntegratesInvSq Is) :
    ((calculateCorrelationFull (liftI Is) mockVertex piv (-2) 2 1
        scenarioLat 0 old).bD 0 = 1 / (1 * 1) / piv)
    ∧ (∀ r : ℕ, 1 ≤ r → r ≤ 3 →
        (calculateCorrelationFull (liftI Is) mockVertex piv (-2) 2 1
          scenarioLat 0 old).bX r = 0
        ∧ (calculateCorrelationFull (liftI Is) mockVertex piv (-2) 2 1
          scenarioLat 0 old).bY r = 0
        ∧ (calculateCorrelationFull (liftI Is) mockVertex piv (-2) 2 1
          scenarioLat 0 old).bZ r = 0
        ∧ (calculateCorrelationFull (liftI Is) mockVertex piv (-2) 2 1
          scenarioLat 0 old).bD r = 0) := by
  have hval : ∀ (ch : Fin 4) (o : ℕ → ℚ) (r : ℕ), r < 4 →
      calcCorrBuf scenarioLat
        (susceptibilityBundle (liftI Is) mockVertex piv (-2) 2 1 0) 0 ch o r =
      susceptibilityBundle (liftI Is) mockVertex piv (-2) 2 1 0 ch r := by
    intro ch o r hr
    have h := calcCorrBuf_at scenarioLat
      (susceptibilityBundle (liftI Is) mockVertex piv (-2) 2 1 0) 0 ch o 0 r
      (by norm_num [scenarioLat]) (by simpa [scenarioLat] using hr)
    simpa [scenarioLat, memoryStepLattice] using h
  constructor
  · show calcCorrBuf scenarioLat
      (susceptibilityBundle (liftI Is) mockVertex piv (-2) 2 1 0) 0 3 old.bD 0
        = 1 / (1 * 1) / piv
    rw [hval 3 old.bD 0 (by norm_num),
      susceptibilityMockDensity Is hz hinv piv]
    norm_num
  · intro r hr1 hr3
    have hr4 : r < 4 := by omega
    have hne : r ≠ 0 := by omega
    refine ⟨?_, ?_, ?_, ?_⟩
    · show calcCorrBuf scenarioLat
        (susceptibilityBundle (liftI Is) mockVertex piv (-2) 2 1 0) 0 0 old.bX r = 0
      rw [hval 0 old.bX r hr4, susceptibilityMockOffZero Is hz piv 0 r hne]
    · show calcCorrBuf scenarioLat
        (susceptibilityBundle (liftI Is) mockVertex piv (-2) 2 1 0) 0 1 old.bY r = 0
      rw [hval 1 old.bY r hr4, susceptibilityMockOffZero Is hz piv 1 r hne]
    · show calcCorrBuf scenarioLat
        (susceptibilityBundle (liftI Is) mockVertex piv (-2) 2 1 0) 0 2 old.bZ r = 0
      rw [hval 2 old.bZ r hr4, susceptibilityMockOffZero Is hz piv 2 r hne]
    · show calcCorrBuf scenarioLat
        (susceptibilityBundle (liftI Is) mockVertex piv (-2) 2 1 0) 0 3 old.bD r = 0
      rw [hval 3 old.bD r hr4, susceptibilityMockOffZero Is hz piv 3 r hne]

/-- Witness for claim C7 at the concrete sample quadrature and a concrete
rational standing for float(M_PI). -/
theorem correlationScenario_w :
    (calculateCorrelationFull (liftI sampleQuadrature) mockVertex (355 / 113)
        (-2) 2 1 scenarioLat 0 zeroBufs).bD 0 = 1 / (1 * 1) / (355 / 113) :=
  (correlationScenario (355 / 113) sampleQuadrature zeroBufs
    sampleQuadratureZero sampleQuadratureInvSq).1
